import Mathlib

/-!
Verification of the context-management sidecar ("free-ralph-context").

Shallow embedding of the Python services under `src/ralph-api/app`:
session lifecycle (`services/session_service.py`, `models/session.py`),
fold decision engine (`services/fold_service.py`), transcript watcher
(`services/transcript_watcher.py`), checkpoint and spawn services
(`services/checkpoint_service.py`, `services/spawn_service.py`), and the
memory service (`services/memory_service.py`).

Conventions of the embedding:
* Python floats that hold context ratios and scores are modelled as `ℚ`
  (every literal involved is an exact decimal, and the comparisons the code
  performs are order comparisons at those literals).
* Database rows are records; a table is a `List` of rows; a committed
  transaction produces a new list.  UUIDs are opaque `Nat` identifiers.
* Fallible Python code (raising `ValueError` / `AttributeError`, or a
  failing commit) is modelled with `Except String` results, returning the
  post-state alongside so that "state unchanged on error" is expressible.
* Python strings are `String`; where character-level operations matter
  (lower-casing, whitespace splitting, substring tests) text is a
  `List Char` and ASCII semantics are used, which is what the code relies
  on for its keyword matching.
-/

/-! ## Session model — `app/models/session.py`

`class SessionStatus(str, PyEnum)` has exactly the three members
`ACTIVE`, `COMPLETED`, `TERMINATED` (lines 15-18).  There is no
`INACTIVE` member. -/

inductive SessionStatus where
  | active
  | completed
  | terminated
deriving DecidableEq, Repr

/-- Python attribute lookup `SessionStatus.<name>` on the enum class:
only the three declared members resolve; any other name (in particular
`INACTIVE`, which `transcript_watcher.py` line 380 references) raises
`AttributeError`, modelled as `none`. -/
def sessionStatusAttr : String → Option SessionStatus
  | "ACTIVE" => some SessionStatus.active
  | "COMPLETED" => some SessionStatus.completed
  | "TERMINATED" => some SessionStatus.terminated
  | _ => none

/-- A `sessions` row (`app/models/session.py`, class `Session`).
`created_at` is an abstract clock ordinal. -/
structure Session where
  id : Nat
  task_description : String
  max_tokens : Int
  current_tokens : Int
  status : SessionStatus
  created_at : Nat
deriving DecidableEq, Repr

/-- Python true division `a / b`, which raises `ZeroDivisionError` when
`b = 0`; modelled as `Option`. -/
def pyDiv (a b : ℚ) : Option ℚ :=
  if b = 0 then none else some (a / b)

/-- `Session.context_usage` property (`app/models/session.py` lines 43-48):
`if self.max_tokens == 0: return 0.0` then `return self.current_tokens /
self.max_tokens`.  The division is `pyDiv` so that totality is a theorem,
not an artifact of Lean's total division. -/
def context_usage (s : Session) : Option ℚ :=
  if s.max_tokens = 0 then some 0
  else pyDiv (s.current_tokens : ℚ) (s.max_tokens : ℚ)

/-- `db.get(Session, session_id)` over the sessions table. -/
def dbGet (sessions : List Session) (sid : Nat) : Option Session :=
  sessions.find? (fun s => s.id = sid)

/-- Committing a mutation of one row: replace the row with matching id. -/
def dbPut (sessions : List Session) (s' : Session) : List Session :=
  sessions.map (fun s => if s.id = s'.id then s' else s)

/-- `update_tokens` (`app/services/session_service.py` lines 50-64): fetch
the session, raise `ValueError` if absent, otherwise set
`session.current_tokens = tokens` and commit.  The source performs no
validation of `tokens` against `max_tokens` and no check of `status`. -/
def update_tokens (sessions : List Session) (sid : Nat) (tokens : Int) :
    Except String (List Session × Session) :=
  match dbGet sessions sid with
  | none => Except.error "Session not found"
  | some s =>
      let s' := { s with current_tokens := tokens }
      Except.ok (dbPut sessions s', s')

/-! ## Fold decision engine — `app/services/fold_service.py` -/

inductive Urgency where
  | low
  | medium
  | high
  | critical
deriving DecidableEq, Repr

/-- The ordering low < medium < high < critical, as a rank. -/
def urgencyRank : Urgency → Nat
  | Urgency.low => 0
  | Urgency.medium => 1
  | Urgency.high => 2
  | Urgency.critical => 3

structure ShouldFoldResult where
  should_fold : Bool
  urgency : Urgency
  reason : String
  recommended_action : String
  context_usage : ℚ
  provider : String
deriving DecidableEq, Repr

/-- One row of a provider threshold table: (threshold, urgency, reason,
recommended action).  Thresholds are the exact decimals of the source,
written as `mkRat t 100`. -/
abbrev ThresholdRow := ℚ × Urgency × String × String

/-- `PROVIDER_THRESHOLDS["anthropic"]` (`fold_service.py` lines 54-59),
in dict insertion order. -/
def anthropicThresholds : List ThresholdRow :=
  [ (mkRat 60 100, Urgency.medium, "Consider milestone checkpoint", "checkpoint"),
    (mkRat 75 100, Urgency.high, "Safety checkpoint recommended", "checkpoint"),
    (mkRat 85 100, Urgency.high, "Fold/compress REQUIRED", "compress"),
    (mkRat 95 100, Urgency.critical, "MUST spawn new agent", "spawn") ]

/-- `PROVIDER_THRESHOLDS["glm"]` (lines 60-65). -/
def glmThresholds : List ThresholdRow :=
  [ (mkRat 50 100, Urgency.medium, "Consider milestone checkpoint (GLM)", "checkpoint"),
    (mkRat 65 100, Urgency.high, "Safety checkpoint recommended (GLM)", "checkpoint"),
    (mkRat 75 100, Urgency.high, "Fold/compress REQUIRED (GLM)", "compress"),
    (mkRat 85 100, Urgency.critical, "MUST spawn new agent (GLM)", "spawn") ]

/-- `PROVIDER_THRESHOLDS["openai"]` (lines 66-71). -/
def openaiThresholds : List ThresholdRow :=
  [ (mkRat 60 100, Urgency.medium, "Consider milestone checkpoint", "checkpoint"),
    (mkRat 75 100, Urgency.high, "Safety checkpoint recommended", "checkpoint"),
    (mkRat 85 100, Urgency.high, "Fold/compress REQUIRED", "compress"),
    (mkRat 95 100, Urgency.critical, "MUST spawn new agent", "spawn") ]

/-- `PROVIDER_THRESHOLDS["google"]` (lines 72-77). -/
def googleThresholds : List ThresholdRow :=
  [ (mkRat 70 100, Urgency.medium, "Consider milestone checkpoint (Gemini)", "checkpoint"),
    (mkRat 80 100, Urgency.high, "Safety checkpoint recommended (Gemini)", "checkpoint"),
    (mkRat 90 100, Urgency.high, "Fold/compress REQUIRED (Gemini)", "compress"),
    (mkRat 97 100, Urgency.critical, "MUST spawn new agent (Gemini)", "spawn") ]

/-- `PROVIDER_THRESHOLDS.get(provider)` — the dict has exactly the four
keys anthropic / glm / openai / google. -/
def PROVIDER_THRESHOLDS (p : String) : Option (List ThresholdRow) :=
  if p = "anthropic" then some anthropicThresholds
  else if p = "glm" then some glmThresholds
  else if p = "openai" then some openaiThresholds
  else if p = "google" then some googleThresholds
  else none

/-- `get_thresholds_for_provider` (lines 109-113):
`PROVIDER_THRESHOLDS.get(provider, PROVIDER_THRESHOLDS["anthropic"])`. -/
def get_thresholds_for_provider (p : String) : List ThresholdRow :=
  (PROVIDER_THRESHOLDS p).getD anthropicThresholds

/-- `sorted(thresholds.items(), reverse=True)`: the rows ordered by
descending threshold (keys within one table are distinct, so any stable
sort produces this unique order). -/
def sortedRowsDesc (tbl : List ThresholdRow) : List ThresholdRow :=
  List.insertionSort (fun a b => b.1 ≤ a.1) tbl

/-- The loop of `should_fold` (lines 141-152): return the first row of the
descending-ordered table whose threshold is `≤ context_usage`. -/
def firstMatch (rows : List ThresholdRow) (cu : ℚ) : Option ThresholdRow :=
  rows.find? (fun r => decide (r.1 ≤ cu))

/-- `should_fold(context_usage, memory_count, provider)` (lines 120-162).
`detected` stands for the result of `detect_active_provider()` (a read of
`~/.ccs/config.json`, an external input); the code uses it only when
`provider` is `None` or the empty string (Python truthiness of
`provider or detect_active_provider()`). -/
def should_fold (cu : ℚ) (memory_count : Nat) (provider : Option String)
    (detected : String) : ShouldFoldResult :=
  let dp := match provider with
    | some p => if p = "" then detected else p
    | none => detected
  let tbl := get_thresholds_for_provider dp
  match firstMatch (sortedRowsDesc tbl) cu with
  | some (_, u, r, a) =>
      { should_fold := true, urgency := u, reason := r,
        recommended_action := a, context_usage := cu, provider := dp }
  | none =>
      { should_fold := false, urgency := Urgency.low,
        reason := "Context usage acceptable", recommended_action := "continue",
        context_usage := cu, provider := dp }

/-! ## Generic lemmas about the threshold scan -/

/-- Urgency of an optional matched row (`low` when no row matched). -/
def urgOf : Option ThresholdRow → Nat
  | some r => urgencyRank r.2.1
  | none => 0

theorem firstMatch_mem {rows : List ThresholdRow} {cu : ℚ} {r : ThresholdRow}
    (h : firstMatch rows cu = some r) : r ∈ rows := by
  exact List.mem_of_find?_eq_some h

/-- On a table whose urgencies are non-increasing along the list, the scan
`firstMatch` yields a non-decreasing urgency as the usage grows. -/
theorem firstMatch_urg_mono (rows : List ThresholdRow)
    (hpw : rows.Pairwise (fun a b => urgencyRank b.2.1 ≤ urgencyRank a.2.1))
    {x y : ℚ} (hxy : x ≤ y) :
    urgOf (firstMatch rows x) ≤ urgOf (firstMatch rows y) := by
  induction rows with
  | nil => simp [firstMatch, urgOf]
  | cons r rest ih =>
      rcases List.pairwise_cons.mp hpw with ⟨hhead, hrest⟩
      by_cases hry : r.1 ≤ y
      · have hy : firstMatch (r :: rest) y = some r := by
          simp [firstMatch, List.find?_cons, hry]
        by_cases hrx : r.1 ≤ x
        · have hx : firstMatch (r :: rest) x = some r := by
            simp [firstMatch, List.find?_cons, hrx]
          rw [hx, hy]
        · have hx : firstMatch (r :: rest) x = firstMatch rest x := by
            simp [firstMatch, List.find?_cons, hrx]
          rw [hx, hy]
          cases hfx : firstMatch rest x with
          | none => simp [urgOf]
          | some b =>
              have hb : b ∈ rest := firstMatch_mem hfx
              simpa [urgOf] using hhead b hb
      · have hrx : ¬ r.1 ≤ x := fun h => hry (h.trans hxy)
        have hx : firstMatch (r :: rest) x = firstMatch rest x := by
          simp [firstMatch, List.find?_cons, hrx]
        have hy : firstMatch (r :: rest) y = firstMatch rest y := by
          simp [firstMatch, List.find?_cons, hry]
        rw [hx, hy]
        exact ih hrest

/-! ## Claim theorems: C9, C1, C2, C6 -/

/-- C9: Reading a session's `context_usage` is total: for every session it
returns a value — `0` when `max_tokens = 0` (instead of dividing by zero),
and `current_tokens / max_tokens` otherwise. -/
theorem context_usage_total (s : Session) :
    context_usage s =
      some (if s.max_tokens = 0 then 0
            else (s.current_tokens : ℚ) / (s.max_tokens : ℚ)) := by
  unfold context_usage pyDiv
  by_cases h : s.max_tokens = 0
  · simp [h]
  · have hq : (s.max_tokens : ℚ) ≠ 0 := Int.cast_ne_zero.mpr h
    simp [h, hq]

/-- C1 counterexample: the claim says `UpdateTokens` rejects the update
(leaving `current_tokens` unchanged) when `tokens > max_tokens` or the
session is terminal.  On a completed session with `max_tokens = 100`,
`update_tokens` with `tokens = 150` succeeds and sets
`current_tokens := 150`, violating both conditions at once. -/
theorem update_tokens_accepts_invalid_cex :
    (150 : Int) > (Session.mk 1 "demo task" 100 40 SessionStatus.completed 0).max_tokens ∧
    (Session.mk 1 "demo task" 100 40 SessionStatus.completed 0).status = SessionStatus.completed ∧
    update_tokens [Session.mk 1 "demo task" 100 40 SessionStatus.completed 0] 1 150 =
      Except.ok ([Session.mk 1 "demo task" 100 150 SessionStatus.completed 0],
                 Session.mk 1 "demo task" 100 150 SessionStatus.completed 0) := by
  refine ⟨by decide, rfl, ?_⟩
  rfl

/-- C1 (amended): `update_tokens(id, tokens)` returns the updated session
when a session with the id exists — setting `current_tokens := tokens`
unconditionally, with every other field (including `status` and
`max_tokens`) unchanged, even when `tokens > max_tokens` or the session is
terminal — and NotFound (a `ValueError`) when no session has the id. -/
theorem update_tokens_amended (sessions : List Session) (sid : Nat) (tokens : Int) :
    (dbGet sessions sid = none →
       update_tokens sessions sid tokens = Except.error "Session not found") ∧
    (∀ s, dbGet sessions sid = some s →
       update_tokens sessions sid tokens =
         Except.ok (dbPut sessions { s with current_tokens := tokens },
                    { s with current_tokens := tokens }) ∧
       ({ s with current_tokens := tokens } : Session).current_tokens = tokens ∧
       ({ s with current_tokens := tokens } : Session).status = s.status ∧
       ({ s with current_tokens := tokens } : Session).max_tokens = s.max_tokens) := by
  constructor
  · intro h
    unfold update_tokens
    rw [h]
  · intro s h
    unfold update_tokens
    rw [h]
    exact ⟨rfl, rfl, rfl, rfl⟩

/-- Witness for `update_tokens_amended` at a concrete store. -/
theorem update_tokens_amended_witness :
    update_tokens [Session.mk 7 "t" 200000 0 SessionStatus.active 3] 7 50000 =
      Except.ok (dbPut [Session.mk 7 "t" 200000 0 SessionStatus.active 3]
                   { Session.mk 7 "t" 200000 0 SessionStatus.active 3 with current_tokens := 50000 },
                 { Session.mk 7 "t" 200000 0 SessionStatus.active 3 with current_tokens := 50000 }) :=
  ((update_tokens_amended [Session.mk 7 "t" 200000 0 SessionStatus.active 3] 7 50000).2
    (Session.mk 7 "t" 200000 0 SessionStatus.active 3) (by decide)).1

/-- C2: with provider anthropic, `should_fold(0.59)` yields
`should_fold=false, urgency=low, recommended_action="continue"`;
`should_fold(0.60)` yields `should_fold=true, urgency=medium,
recommended_action="checkpoint"`; `should_fold(0.95)` yields
`urgency=critical, recommended_action="spawn"` — the scan compares
`context_usage ≥ threshold` on the descending-ordered rows, so the highest
matching row wins.  (`mkRat n 100` is the exact decimal `0.n`.) -/
theorem should_fold_anthropic_boundaries :
    (should_fold (mkRat 59 100) 0 (some "anthropic") "anthropic").should_fold = false ∧
    (should_fold (mkRat 59 100) 0 (some "anthropic") "anthropic").urgency = Urgency.low ∧
    (should_fold (mkRat 59 100) 0 (some "anthropic") "anthropic").recommended_action = "continue" ∧
    (should_fold (mkRat 60 100) 0 (some "anthropic") "anthropic").should_fold = true ∧
    (should_fold (mkRat 60 100) 0 (some "anthropic") "anthropic").urgency = Urgency.medium ∧
    (should_fold (mkRat 60 100) 0 (some "anthropic") "anthropic").recommended_action = "checkpoint" ∧
    (should_fold (mkRat 95 100) 0 (some "anthropic") "anthropic").urgency = Urgency.critical ∧
    (should_fold (mkRat 95 100) 0 (some "anthropic") "anthropic").recommended_action = "spawn" := by
  decide

/-- Every provider's table, once ordered descending by threshold, carries
non-increasing urgencies (checked on the four concrete tables, which also
cover the fallback for unknown provider strings). -/
theorem get_thresholds_urg_pairwise (p : String) :
    (sortedRowsDesc (get_thresholds_for_provider p)).Pairwise
      (fun a b => urgencyRank b.2.1 ≤ urgencyRank a.2.1) := by
  unfold get_thresholds_for_provider PROVIDER_THRESHOLDS
  by_cases h1 : p = "anthropic"
  · simp only [h1, if_true]; decide
  · by_cases h2 : p = "glm"
    · simp only [h1, h2, if_false, if_true]; decide
    · by_cases h3 : p = "openai"
      · simp only [h1, h2, h3, if_false, if_true]; decide
      · by_cases h4 : p = "google"
        · simp only [h1, h2, h3, h4, if_false, if_true]; decide
        · simp only [h1, h2, h3, h4, if_false]; decide

/-- C6: for every fixed provider (including the `None` / auto-detected
case) and all `context_usage1 ≤ context_usage2` in `[0,1]`, the urgency
returned by `should_fold` for the smaller usage is `≤` the urgency for the
larger one, under low < medium < high < critical. -/
theorem should_fold_urgency_monotone (provider : Option String) (detected : String)
    (mc1 mc2 : Nat) (x y : ℚ) (hx : 0 ≤ x) (hxy : x ≤ y) (hy : y ≤ 1) :
    urgencyRank (should_fold x mc1 provider detected).urgency ≤
      urgencyRank (should_fold y mc2 provider detected).urgency := by
  unfold should_fold
  set dp := (match provider with
    | some p => if p = "" then detected else p
    | none => detected) with hdp
  have key := firstMatch_urg_mono (sortedRowsDesc (get_thresholds_for_provider dp))
    (get_thresholds_urg_pairwise dp) hxy
  cases hfx : firstMatch (sortedRowsDesc (get_thresholds_for_provider dp)) x with
  | none =>
      cases hfy : firstMatch (sortedRowsDesc (get_thresholds_for_provider dp)) y with
      | none => simp [hfx, hfy]
      | some ry =>
          obtain ⟨t, u, r, a⟩ := ry
          simp [hfx, hfy, urgencyRank]
  | some rx =>
      cases hfy : firstMatch (sortedRowsDesc (get_thresholds_for_provider dp)) y with
      | none =>
          rw [hfx, hfy] at key
          obtain ⟨t, u, r, a⟩ := rx
          simp only [urgOf] at key
          simp [hfx, hfy]
          omega
      | some ry =>
          rw [hfx, hfy] at key
          obtain ⟨tx, ux, rx', ax⟩ := rx
          obtain ⟨ty, uy, ry', ay⟩ := ry
          simp only [urgOf] at key
          simpa [hfx, hfy] using key

/-- Witness for `should_fold_urgency_monotone` at usages 0.30 and 0.80. -/
theorem should_fold_urgency_monotone_witness :
    urgencyRank (should_fold (mkRat 30 100) 2 (some "glm") "anthropic").urgency ≤
      urgencyRank (should_fold (mkRat 80 100) 5 (some "glm") "anthropic").urgency :=
  should_fold_urgency_monotone (some "glm") "anthropic" 2 5 (mkRat 30 100) (mkRat 80 100)
    (by norm_num [Rat.mkRat_eq_div]) (by norm_num [Rat.mkRat_eq_div])
    (by norm_num [Rat.mkRat_eq_div])

/-! ## Transcript watcher — `app/services/transcript_watcher.py`

Token extraction (`_extract_usage_from_content`, lines 183-203).  The raw
content is JSON-lines; a line is modelled at the granularity the scanner
inspects it: whether the raw text contains the substring
`"type":"assistant"`, and the outcome of `json.loads` — `none` when the
line is not valid JSON (the `JSONDecodeError` branch), otherwise the
parsed `type` field and the `message.usage` block (`none` when absent or
empty, i.e. falsy in `msg.get("message", {}).get("usage")`). -/

structure UsageBlock where
  input_tokens : Nat
  cache_creation_input_tokens : Nat
  cache_read_input_tokens : Nat
deriving DecidableEq, Repr

structure ParsedMsg where
  msg_type : String
  usage : Option UsageBlock
deriving DecidableEq, Repr

structure TranscriptLine where
  hasAssistantMarker : Bool
  parsed : Option ParsedMsg
deriving DecidableEq, Repr

/-- Whether a line makes the scan stop: marker present, JSON parses,
`type == "assistant"`, and a truthy usage block. -/
def lineYields (l : TranscriptLine) : Option UsageBlock :=
  if l.hasAssistantMarker then
    match l.parsed with
    | some m => if m.msg_type = "assistant" then m.usage else none
    | none => none
  else none

/-- The backwards scan over the lines (`for line in reversed(lines)`):
every `continue` branch recurses; the first line with a usage block
returns `input_tokens + cache_creation_input_tokens`. -/
def scanReversed : List TranscriptLine → Option Nat
  | [] => none
  | l :: rest =>
      match lineYields l with
      | some u => some (u.input_tokens + u.cache_creation_input_tokens)
      | none => scanReversed rest

/-- `_extract_usage_from_content(content)`: scan the lines from the last
to the first. -/
def extract_usage_from_content (lines : List TranscriptLine) : Option Nat :=
  scanReversed lines.reverse

theorem scanReversed_sum {lines : List TranscriptLine} {r : Nat}
    (h : scanReversed lines = some r) :
    ∃ l ∈ lines, ∃ u, lineYields l = some u ∧
      r = u.input_tokens + u.cache_creation_input_tokens := by
  induction lines with
  | nil => simp [scanReversed] at h
  | cons l rest ih =>
      by_cases hy : ∃ u, lineYields l = some u
      · obtain ⟨u, hu⟩ := hy
        rw [scanReversed, hu] at h
        exact ⟨l, List.mem_cons_self l rest, u, hu, (Option.some.injEq _ _).mp h |>.symm⟩
      · push_neg at hy
        have hnone : lineYields l = none := by
          cases hyl : lineYields l with
          | none => rfl
          | some u => exact absurd hyl (hy u)
        rw [scanReversed, hnone] at h
        obtain ⟨l', hl', u, hu, hr⟩ := ih h
        exact ⟨l', List.mem_cons_of_mem l hl', u, hu, hr⟩

/-- The concrete transcript of the claim: a user line, an assistant line
without usage, and a final assistant line with
`usage = {input_tokens: 1000, cache_creation_input_tokens: 500,
cache_read_input_tokens: 50000}`. -/
def exTranscript : List TranscriptLine :=
  [ { hasAssistantMarker := false, parsed := some { msg_type := "user", usage := none } },
    { hasAssistantMarker := true, parsed := some { msg_type := "assistant", usage := none } },
    { hasAssistantMarker := true,
      parsed := some { msg_type := "assistant",
                       usage := some { input_tokens := 1000,
                                       cache_creation_input_tokens := 500,
                                       cache_read_input_tokens := 50000 } } } ]

/-- C3: whenever the trailing scan finds an assistant turn with a usage
block, the extracted token count is `input_tokens +
cache_creation_input_tokens` of that turn — `cache_read_input_tokens`
never enters the sum; in particular the transcript whose last assistant
turn has `usage = {input_tokens: 1000, cache_creation_input_tokens: 500,
cache_read_input_tokens: 50000}` yields 1500 tokens. -/
theorem extract_usage_excludes_cache_read :
    (∀ (lines : List TranscriptLine) (r : Nat),
       extract_usage_from_content lines = some r →
       ∃ l ∈ lines, ∃ u, lineYields l = some u ∧
         r = u.input_tokens + u.cache_creation_input_tokens) ∧
    extract_usage_from_content exTranscript = some 1500 := by
  constructor
  · intro lines r h
    obtain ⟨l, hl, u, hu, hr⟩ := scanReversed_sum h
    exact ⟨l, List.mem_reverse.mp hl, u, hu, hr⟩
  · rfl

/-- Witness: the universally quantified part of
`extract_usage_excludes_cache_read`, applied at the concrete transcript. -/
theorem extract_usage_excludes_cache_read_witness :
    ∃ l ∈ exTranscript, ∃ u, lineYields l = some u ∧
      1500 = u.input_tokens + u.cache_creation_input_tokens :=
  extract_usage_excludes_cache_read.1 exTranscript 1500 rfl

/-! ## Watcher cache and status — `transcript_watcher.py`

Constants of `transcript_service.py` (lines 38-42). -/

def MAX_CONTEXT_TOKENS : Nat := 200000
def BYTES_PER_TOKEN : Nat := 6
def SYSTEM_OVERHEAD_TOKENS : Nat := 2000

/-- `ProjectData` (`transcript_service.py` lines 71-83), the in-memory
cache entry the watcher keeps per `(source, project)`. -/
structure ProjectData where
  name : String
  project_path : String
  current_tokens : Nat
  max_tokens : Nat
  context_usage : ℚ
  last_updated : String
  transcript_path : String
  is_real_data : Bool
  source_name : String
  source_color : String
deriving DecidableEq, Repr

/-- Token computation of `_update_project_tokens` (lines 342-353):
`real_tokens` is `get_last_assistant_usage`'s result; when `None`, fall
back to `min(file_size // 6 + 2000, 200000)`, otherwise
`min(real_tokens, 200000)`. -/
def computeTokens (real_tokens : Option Nat) (file_size : Nat) : Nat :=
  match real_tokens with
  | none => min (file_size / BYTES_PER_TOKEN + SYSTEM_OVERHEAD_TOKENS) MAX_CONTEXT_TOKENS
  | some r => min r MAX_CONTEXT_TOKENS

/-- Python dict assignment `cache[key] = pd`. -/
def setKey (cache : List (String × ProjectData)) (key : String) (pd : ProjectData) :
    List (String × ProjectData) :=
  if cache.any (fun kv => kv.1 = key) then
    cache.map (fun kv => if kv.1 = key then (key, pd) else kv)
  else cache ++ [(key, pd)]

/-- Python `cache.pop(key, None)`. -/
def eraseKey (cache : List (String × ProjectData)) (key : String) :
    List (String × ProjectData) :=
  cache.filter (fun kv => kv.1 ≠ key)

/-- The cache effect of `_update_project_tokens` (lines 340-385 of
`transcript_watcher.py`): compute the token count and store a
`ProjectData` under the key `source:project` with
`context_usage = min(0.99, tokens / MAX_CONTEXT_TOKENS)`.  The session
upsert this method also performs touches only the sessions table, never
the cache, and `get_status` reads only the cache, so it is omitted here. -/
def update_project_tokens (cache : List (String × ProjectData))
    (source_name project_name transcript_path : String)
    (real_tokens : Option Nat) (file_size : Nat) (now : String) :
    List (String × ProjectData) :=
  let tokens := computeTokens real_tokens file_size
  let key := source_name ++ ":" ++ project_name
  setKey cache key
    { name := project_name
      project_path := project_name
      current_tokens := tokens
      max_tokens := MAX_CONTEXT_TOKENS
      context_usage := min (mkRat 99 100) ((tokens : ℚ) / (MAX_CONTEXT_TOKENS : ℚ))
      last_updated := now
      transcript_path := transcript_path
      is_real_data := real_tokens.isSome
      source_name := source_name
      source_color := "" }

/-- `_handle_deleted_transcript` (lines 362-385): look up the most recent
session whose `task_description` is the literal `"Auto-detected:
<source>:<project>"`; if one exists, execute
`session.status = SessionStatus.INACTIVE` — an attribute lookup on the
enum class — then commit and pop the cache entry.  The triple returned is
(outcome, sessions table, cache) after the call; when the Python line
raises, neither the commit nor the `pop` is reached. -/
def findAutoDetected (sessions : List Session) (key : String) : Option Session :=
  (List.insertionSort (fun a b => b.created_at ≤ a.created_at)
      (sessions.filter (fun s => s.task_description = "Auto-detected: " ++ key))).head?

def handle_deleted_transcript (sessions : List Session)
    (cache : List (String × ProjectData)) (source_name project_name : String) :
    Except String Unit × List Session × List (String × ProjectData) :=
  let key := source_name ++ ":" ++ project_name
  match findAutoDetected sessions key with
  | some s =>
      match sessionStatusAttr "INACTIVE" with
      | some st => (Except.ok (), dbPut sessions { s with status := st }, eraseKey cache key)
      | none => (Except.error "AttributeError: INACTIVE", sessions, cache)
  | none => (Except.ok (), sessions, eraseKey cache key)

/-- A concrete cache entry for the failing input. -/
def exProjectData : ProjectData :=
  { name := "ralph", project_path := "ralph", current_tokens := 5000,
    max_tokens := MAX_CONTEXT_TOKENS,
    context_usage := min (mkRat 99 100) ((5000 : ℚ) / (MAX_CONTEXT_TOKENS : ℚ)),
    last_updated := "2026-01-01T00:00:00", transcript_path := "/claude/projects/r/A.jsonl",
    is_real_data := true, source_name := "claude", source_color := "" }

/-- C4 (code bug): when a deleted event hits the active transcript of
`(claude, ralph)` and a matching auto-detected session exists, the claim
(and the module's own docstring, "DELETE: Conversation removed → mark
session inactive") says the session's status becomes inactive.  The code
executes `SessionStatus.INACTIVE`, but the enum declares only ACTIVE /
COMPLETED / TERMINATED, so the lookup raises `AttributeError` and the
session's status — and the cache — are left unchanged. -/
theorem handle_deleted_transcript_inactive_bug :
    sessionStatusAttr "INACTIVE" = none ∧
    handle_deleted_transcript
        [Session.mk 1 "Auto-detected: claude:ralph" 200000 5000 SessionStatus.active 0]
        [("claude:ralph", exProjectData)] "claude" "ralph" =
      (Except.error "AttributeError: INACTIVE",
       [Session.mk 1 "Auto-detected: claude:ralph" 200000 5000 SessionStatus.active 0],
       [("claude:ralph", exProjectData)]) := by
  exact ⟨rfl, rfl⟩

/-! ### C10 — the dashboard status snapshot -/

/-- One entry of the `projects` list of the status payload
(`get_status`, lines 456-487). -/
structure StatusProject where
  name : String
  projectPath : String
  currentTokens : Nat
  maxTokens : Nat
  contextUsage : ℚ
  lastUpdated : String
  isRealData : Bool
  transcriptPath : String
deriving DecidableEq, Repr

/-- `get_status`: one row per cache entry, sorted by `currentTokens`
descending.  (`pct = round(context_usage*100)` and the source color are
presentation fields the claims do not touch; they are omitted.) -/
def get_status_projects (cache : List (String × ProjectData)) : List StatusProject :=
  List.insertionSort (fun a b => b.currentTokens ≤ a.currentTokens)
    (cache.map (fun kv =>
      { name := kv.2.source_name ++ "—" ++ kv.2.name
        projectPath := kv.2.project_path
        currentTokens := kv.2.current_tokens
        maxTokens := kv.2.max_tokens
        contextUsage := kv.2.context_usage
        lastUpdated := kv.2.last_updated
        isRealData := kv.2.is_real_data
        transcriptPath := kv.2.transcript_path }))

/-- The cache mutations the watcher ever performs: an update for a
confirmed created/modified event, or the deleted-event handling.  For a
deleted event with a matching session the `AttributeError` analysed in C4
fires before `cache.pop`, so the cache is unchanged; without a matching
session the entry is popped — `hadSession` selects the branch. -/
inductive WatchEvent where
  | update (source_name project_name transcript_path : String)
      (real_tokens : Option Nat) (file_size : Nat) (now : String)
  | deleted (source_name project_name : String) (hadSession : Bool)

def applyWatchEvent (cache : List (String × ProjectData)) :
    WatchEvent → List (String × ProjectData)
  | WatchEvent.update s p tp rt fs now => update_project_tokens cache s p tp rt fs now
  | WatchEvent.deleted s p hadSession =>
      if hadSession then cache else eraseKey cache (s ++ ":" ++ p)

/-- Every cache reachable from the watcher's initial empty cache has all
its `context_usage` values `≤ 0.99`. -/
theorem watch_cache_usage_le (events : List WatchEvent) :
    ∀ kv ∈ events.foldl applyWatchEvent [], (kv : String × ProjectData).2.context_usage ≤ mkRat 99 100 := by
  have step : ∀ (cache : List (String × ProjectData)) (e : WatchEvent),
      (∀ kv ∈ cache, (kv : String × ProjectData).2.context_usage ≤ mkRat 99 100) →
      ∀ kv ∈ applyWatchEvent cache e, (kv : String × ProjectData).2.context_usage ≤ mkRat 99 100 := by
    intro cache e hinv kv hkv
    cases e with
    | update s p tp rt fs now =>
        simp only [applyWatchEvent, update_project_tokens, setKey] at hkv
        split at hkv
        · rcases List.mem_map.mp hkv with ⟨kv0, hkv0, hmap⟩
          by_cases heq : kv0.1 = s ++ ":" ++ p
          · simp only [heq, if_true] at hmap
            subst hmap
            exact min_le_left _ _
          · simp only [heq, if_false] at hmap
            subst hmap
            exact hinv kv0 hkv0
        · rcases List.mem_append.mp hkv with h | h
          · exact hinv kv h
          · rcases List.mem_singleton.mp h with rfl
            exact min_le_left _ _
    | deleted s p hadSession =>
        simp only [applyWatchEvent] at hkv
        split at hkv
        · exact hinv kv hkv
        · exact hinv kv (List.mem_of_mem_filter hkv)
  induction events using List.reverseRecOn with
  | nil => intro kv hkv; simp at hkv
  | append_singleton es e ih =>
      intro kv hkv
      rw [List.foldl_append, List.foldl_cons, List.foldl_nil] at hkv
      exact step _ e ih kv hkv

/-- C10: in every dashboard status snapshot the watcher can produce —
`get_status` on any cache reachable from startup, hence also the payload
of every emitted `update` event — each project's `contextUsage` is at most
0.99, even when `current_tokens` equals `max_tokens`
(`min(0.99, tokens / MAX_CONTEXT_TOKENS)` clamps it). -/
theorem get_status_contextUsage_le (events : List WatchEvent) :
    ∀ sp ∈ get_status_projects (events.foldl applyWatchEvent []),
      (sp : StatusProject).contextUsage ≤ mkRat 99 100 := by
  intro sp hsp
  have hperm := List.perm_insertionSort
    (fun a b : StatusProject => b.currentTokens ≤ a.currentTokens)
    ((events.foldl applyWatchEvent []).map (fun kv =>
      { name := kv.2.source_name ++ "—" ++ kv.2.name
        projectPath := kv.2.project_path
        currentTokens := kv.2.current_tokens
        maxTokens := kv.2.max_tokens
        contextUsage := kv.2.context_usage
        lastUpdated := kv.2.last_updated
        isRealData := kv.2.is_real_data
        transcriptPath := kv.2.transcript_path }))
  have hsp' := hperm.mem_iff.mp (by exact hsp)
  rcases List.mem_map.mp hsp' with ⟨kv, hkv, hmap⟩
  have := watch_cache_usage_le events kv hkv
  rw [← hmap]
  exact this

/-- The status entry produced by a single update event with
`real_tokens = 200000` — tokens exactly filling the window. -/
def exStatusEntry : StatusProject :=
  { name := "claude—ralph", projectPath := "ralph",
    currentTokens := 200000, maxTokens := MAX_CONTEXT_TOKENS,
    contextUsage := min (mkRat 99 100) (((200000 : Nat) : ℚ) / (MAX_CONTEXT_TOKENS : ℚ)),
    lastUpdated := "t0", isRealData := true, transcriptPath := "/p/B.jsonl" }

/-- Witness for `get_status_contextUsage_le`: a run with one update event
whose tokens fill the window exactly still reports `contextUsage ≤ 0.99`. -/
theorem get_status_contextUsage_le_witness :
    exStatusEntry.contextUsage ≤ mkRat 99 100 :=
  get_status_contextUsage_le
    [WatchEvent.update "claude" "ralph" "/p/B.jsonl" (some 200000) 0 "t0"]
    exStatusEntry (List.mem_singleton.mpr rfl)

/-! ## Checkpoint and spawn — `checkpoint_service.py`, `spawn_service.py` -/

/-- `Session.context_usage_percent` (`app/models/session.py` lines 50-53):
`int(self.context_usage * 100)` — truncation of the ratio times 100, `0`
when `max_tokens = 0`.  For non-negative values Python `int()` is integer
division. -/
def context_usage_percent (s : Session) : Int :=
  if s.max_tokens = 0 then 0 else Int.tdiv (100 * s.current_tokens) s.max_tokens

/-- A `memories` row (`app/models/memory.py`).  `content` is a character
list because the keyword search below works character-wise. -/
inductive MemoryCategory where
  | decision | action | error | progress | context | other
deriving DecidableEq, Repr

inductive MemoryPriority where
  | high | normal | low
deriving DecidableEq, Repr

structure MemoryRow where
  id : Nat
  session_id : Nat
  content : List Char
  category : MemoryCategory
  pri : MemoryPriority
  created_at : Nat
deriving DecidableEq, Repr

/-- A `checkpoints` row (`app/models/checkpoint.py` as populated by
`create_checkpoint`): the `state` snapshot's fields are inlined. -/
structure Checkpoint where
  id : Nat
  session_id : Nat
  label : String
  state_task_description : String
  state_current_tokens : Int
  state_max_tokens : Int
  state_status : SessionStatus
  cuse_percent : Int
  memories_snapshot : List Nat
deriving DecidableEq, Repr

/-- A `session_lineage` row. -/
structure Lineage where
  id : Nat
  parent_session_id : Nat
  child_session_id : Nat
  handoff_reason : String
  handoff_prompt : String
  checkpoint_id : Nat
deriving DecidableEq, Repr

/-- The whole store.  `next_id` generates fresh identifiers and doubles as
the clock for `created_at`. -/
structure Store where
  sessions : List Session
  memories : List MemoryRow
  checkpoints : List Checkpoint
  lineages : List Lineage
  next_id : Nat
deriving DecidableEq, Repr

/-- `create_checkpoint` (`checkpoint_service.py` lines 13-65): fetch the
session (ValueError when absent), snapshot its fields and the ids of its
memories, insert the checkpoint row and commit. -/
def create_checkpoint (st : Store) (session_id : Nat) (label : String) :
    Except String (Store × Checkpoint) :=
  match dbGet st.sessions session_id with
  | none => Except.error "Session not found"
  | some s =>
      let memory_ids := (st.memories.filter (fun m => m.session_id = session_id)).map (fun m => m.id)
      let ck : Checkpoint :=
        { id := st.next_id, session_id := session_id, label := label,
          state_task_description := s.task_description,
          state_current_tokens := s.current_tokens,
          state_max_tokens := s.max_tokens,
          state_status := s.status,
          cuse_percent := context_usage_percent s,
          memories_snapshot := memory_ids }
      Except.ok ({ st with checkpoints := st.checkpoints ++ [ck], next_id := st.next_id + 1 }, ck)

/-- `create_session` (`session_service.py` lines 15-42): insert a session
with `status=active, current_tokens=0` and commit. -/
def create_session (st : Store) (task_description : String) (max_tokens : Int) :
    Store × Session :=
  let s : Session :=
    { id := st.next_id, task_description := task_description,
      max_tokens := max_tokens, current_tokens := 0,
      status := SessionStatus.active, created_at := st.next_id }
  ({ st with sessions := st.sessions ++ [s], next_id := st.next_id + 1 }, s)

/-- `f"spawn-{handoff_reason[:20]}"`. -/
def spawnLabel (handoff_reason : String) : String :=
  "spawn-" ++ String.mk (handoff_reason.toList.take 20)

structure SpawnResult where
  parent_session_id : Nat
  child_session_id : Nat
  handoff_prompt : String
  checkpoint_id : Nat
deriving DecidableEq, Repr

/-- `execute_spawn` (`spawn_service.py` lines 103-165).  Steps and their
transaction boundaries, exactly as the source sequences them:
1. `create_checkpoint` — commits its own transaction;
2. `_generate_handoff_prompt` — an external LLM call whose reply is the
   parameter `handoff_prompt`;
3. `create_session` for the child — commits its own transaction;
4. `db.add(lineage)` and 5. `parent.status = COMPLETED`, both flushed by
   one final `await db.commit()`; `final_commit_ok = false` models that
   commit failing (e.g. the unique constraint on `child_session_id`), in
   which case the open transaction — and only it — is rolled back.
The pair returned is (outcome, post-state). -/
def execute_spawn (st : Store) (parent_session_id : Nat) (handoff_reason : String)
    (task_description : Option String) (handoff_prompt : String)
    (final_commit_ok : Bool) : Except String SpawnResult × Store :=
  match dbGet st.sessions parent_session_id with
  | none => (Except.error "Parent session not found", st)
  | some parent =>
      match create_checkpoint st parent_session_id (spawnLabel handoff_reason) with
      | Except.error e => (Except.error e, st)
      | Except.ok (st1, ck) =>
          let (st2, child) :=
            create_session st1 (task_description.getD handoff_prompt) parent.max_tokens
          if final_commit_ok then
            let lineage : Lineage :=
              { id := st2.next_id, parent_session_id := parent_session_id,
                child_session_id := child.id, handoff_reason := handoff_reason,
                handoff_prompt := handoff_prompt, checkpoint_id := ck.id }
            let st3 : Store :=
              { st2 with lineages := st2.lineages ++ [lineage],
                         sessions := dbPut st2.sessions { parent with status := SessionStatus.completed },
                         next_id := st2.next_id + 1 }
            (Except.ok { parent_session_id := parent_session_id,
                         child_session_id := child.id,
                         handoff_prompt := handoff_prompt,
                         checkpoint_id := ck.id }, st3)
          else
            (Except.error "commit failed", st2)

/-- A one-session store for the counterexample. -/
def exSpawnStore : Store :=
  { sessions := [Session.mk 1 "build the parser module" 200000 190000 SessionStatus.active 0],
    memories := [], checkpoints := [], lineages := [], next_id := 2 }

/-- C5 counterexample: the claim says that when the lineage insert /
parent completion (steps 4-5) fail, the checkpoint and the child session
of steps 1-3 are rolled back, leaving the store unchanged.  On a concrete
store, a failed final commit leaves a store that differs from the original
— the checkpoint and the child session are still there, because steps 1
and 3 each committed their own transactions. -/
theorem execute_spawn_not_atomic_cex :
    (execute_spawn exSpawnStore 1 "loop_detected" none "continue the parser work" false).2
      ≠ exSpawnStore ∧
    (execute_spawn exSpawnStore 1 "loop_detected" none "continue the parser work" false).1
      = Except.error "commit failed" ∧
    (execute_spawn exSpawnStore 1 "loop_detected" none "continue the parser work" false).2.checkpoints.length = 1 ∧
    (execute_spawn exSpawnStore 1 "loop_detected" none "continue the parser work" false).2.sessions.length = 2 := by
  refine ⟨?_, rfl, rfl, rfl⟩
  intro h
  have hlen : (execute_spawn exSpawnStore 1 "loop_detected" none
      "continue the parser work" false).2.checkpoints.length =
      exSpawnStore.checkpoints.length := congrArg (fun st => st.checkpoints.length) h
  rw [show (execute_spawn exSpawnStore 1 "loop_detected" none
        "continue the parser work" false).2.checkpoints.length = 1 from rfl,
      show exSpawnStore.checkpoints.length = 0 from rfl] at hlen
  exact Nat.one_ne_zero hlen

/-- C5 (amended): spawn execution is not atomic across its five steps; its
transaction boundaries are per-step.  If the final commit covering the
lineage row (step 4) and the parent completion (step 5) fails, those two
changes are rolled back — the lineage table and the parent session are
unchanged — but the checkpoint of step 1 and the child session of step 3,
committed by their own earlier transactions, remain in the store. -/
theorem find?_append_of_eq_some {α : Type} {p : α → Bool} {l1 l2 : List α} {a : α}
    (h : l1.find? p = some a) : (l1 ++ l2).find? p = some a := by
  induction l1 with
  | nil => simp [List.find?] at h
  | cons x xs ih =>
      rw [List.cons_append]
      cases hx : p x with
      | true =>
          rw [List.find?_cons_of_pos _ hx] at h ⊢
          exact h
      | false =>
          have hx' : ¬ p x = true := by rw [hx]; exact Bool.false_ne_true
          rw [List.find?_cons_of_neg _ hx'] at h ⊢
          exact ih h

theorem execute_spawn_failed_commit_state (st : Store) (pid : Nat)
    (reason prompt : String) (td : Option String) (parent : Session)
    (hp : dbGet st.sessions pid = some parent) :
    ∃ ck child_id,
      execute_spawn st pid reason td prompt false =
        (Except.error "commit failed",
         { st with
             checkpoints := st.checkpoints ++ [ck],
             sessions := st.sessions ++
               [Session.mk child_id (td.getD prompt) parent.max_tokens 0
                  SessionStatus.active child_id],
             next_id := st.next_id + 2 }) ∧
      ck.session_id = pid ∧
      (execute_spawn st pid reason td prompt false).2.lineages = st.lineages ∧
      dbGet (execute_spawn st pid reason td prompt false).2.sessions pid = some parent := by
  have heq : execute_spawn st pid reason td prompt false =
      (Except.error "commit failed",
       { st with
           checkpoints := st.checkpoints ++
             [{ id := st.next_id, session_id := pid, label := spawnLabel reason,
                state_task_description := parent.task_description,
                state_current_tokens := parent.current_tokens,
                state_max_tokens := parent.max_tokens,
                state_status := parent.status,
                cuse_percent := context_usage_percent parent,
                memories_snapshot :=
                  (st.memories.filter (fun m => m.session_id = pid)).map (fun m => m.id) }],
           sessions := st.sessions ++
             [Session.mk (st.next_id + 1) (td.getD prompt) parent.max_tokens 0
                SessionStatus.active (st.next_id + 1)],
           next_id := st.next_id + 2 }) := by
    unfold execute_spawn create_checkpoint create_session
    rw [hp]
    exact rfl
  refine ⟨_, st.next_id + 1, heq, rfl, ?_, ?_⟩
  · rw [heq]
  · rw [heq]
    exact find?_append_of_eq_some hp

/-- Witness for `execute_spawn_failed_commit_state` at the concrete
counterexample store. -/
theorem execute_spawn_failed_commit_state_witness :
    ∃ ck child_id,
      execute_spawn exSpawnStore 1 "loop_detected" none "continue the parser work" false =
        (Except.error "commit failed",
         { exSpawnStore with
             checkpoints := exSpawnStore.checkpoints ++ [ck],
             sessions := exSpawnStore.sessions ++
               [Session.mk child_id "continue the parser work" 200000 0
                  SessionStatus.active child_id],
             next_id := exSpawnStore.next_id + 2 }) ∧
      ck.session_id = 1 ∧
      (execute_spawn exSpawnStore 1 "loop_detected" none "continue the parser work" false).2.lineages = exSpawnStore.lineages ∧
      dbGet (execute_spawn exSpawnStore 1 "loop_detected" none "continue the parser work" false).2.sessions 1 =
        some (Session.mk 1 "build the parser module" 200000 190000 SessionStatus.active 0) :=
  execute_spawn_failed_commit_state exSpawnStore 1 "loop_detected" "continue the parser work" none
    (Session.mk 1 "build the parser module" 200000 190000 SessionStatus.active 0) (by rfl)

/-! ## Memory search — `app/services/memory_service.py`

Character-level helpers for the Python string operations the service
uses: `str.lower()` (ASCII range, which is all the keyword matching relies
on), `str.split()` with no argument (split on whitespace runs, no empty
tokens), and the substring test of both `in` and SQL `ILIKE '%kw%'`
(keywords containing the SQL wildcards `%`/`_` are out of scope of the
claims and are treated literally). -/

def pyLower (s : List Char) : List Char :=
  s.map (fun c =>
    if decide ('A' ≤ c) && decide (c ≤ 'Z') then Char.ofNat (c.toNat + 32) else c)

def pySplitAux : List Char → List Char → List (List Char)
  | [], acc => if acc = [] then [] else [acc.reverse]
  | c :: rest, acc =>
      if c.isWhitespace then
        if acc = [] then pySplitAux rest []
        else acc.reverse :: pySplitAux rest []
      else pySplitAux rest (c :: acc)

def pySplit (s : List Char) : List (List Char) :=
  pySplitAux s []

def containsSub (hay needle : List Char) : Bool :=
  (List.range (hay.length + 1)).any (fun i => needle.isPrefixOf (hay.drop i))

/-- The per-row score of `search_index` (`memory_service.py` lines
204-208): `matches / len(keywords)` where `matches` counts the query
tokens — with their multiplicity, the code never deduplicates `keywords`
— that occur in the lower-cased content. -/
def calc_score (keywords : List (List Char)) (content : List Char) : ℚ :=
  ((keywords.countP (fun kw => containsSub (pyLower content) kw)) : ℚ) /
    ((keywords.length) : ℚ)

/-- A `MemoryIndexItem` (lines 25-33). -/
structure MemoryIndexItem where
  id : Nat
  summary : List Char
  category : MemoryCategory
  pri : MemoryPriority
  score : ℚ
deriving DecidableEq, Repr

/-- `content[:50] + ("..." if len(content) > 50 else "")`. -/
def summary50 (content : List Char) : List Char :=
  content.take 50 ++ (if content.length > 50 then "...".toList else [])

/-- Position of a priority in the enum declaration order (HIGH, NORMAL,
LOW), which is the order the database sorts the column by. -/
def priPos : MemoryPriority → Nat
  | MemoryPriority.high => 0
  | MemoryPriority.normal => 1
  | MemoryPriority.low => 2

/-- `ORDER BY priority DESC, created_at DESC` as a relation on rows. -/
def memOrderLe (a b : MemoryRow) : Bool :=
  decide (priPos b.pri < priPos a.pri) ||
    (decide (priPos a.pri = priPos b.pri) && decide (b.created_at ≤ a.created_at))

/-- `search_index` (lines 175-229): lower-case and split the query;
return `[]` on an empty keyword list; otherwise take the rows of the
session whose content matches any keyword (ILIKE), order them, limit to
`top_k`, and attach the 50-char summary and `calc_score`. -/
def search_index (memories : List MemoryRow) (session_id : Nat)
    (query : List Char) (top_k : Nat) : List MemoryIndexItem :=
  let keywords := pySplit (pyLower query)
  if keywords = [] then []
  else
    let rows := memories.filter (fun m =>
      decide (m.session_id = session_id) &&
        keywords.any (fun kw => containsSub (pyLower m.content) kw))
    let ordered := (List.insertionSort (fun a b => memOrderLe a b = true) rows).take top_k
    ordered.map (fun m =>
      { id := m.id, summary := summary50 m.content, category := m.category,
        pri := m.pri, score := calc_score keywords m.content })

/-- The scoring rule as the claim words it: the count of **distinct**
query tokens appearing in the content over the count of distinct query
tokens.  (Stated from the spec for comparison with `calc_score`.) -/
def specDistinctScore (query content : List Char) : ℚ :=
  let toks := (pySplit (pyLower query)).dedup
  ((toks.countP (fun kw => containsSub (pyLower content) kw)) : ℚ) /
    ((toks.length) : ℚ)

def exMemJwt : MemoryRow :=
  { id := 1, session_id := 1, content := "use jwt for login".toList,
    category := MemoryCategory.context, pri := MemoryPriority.normal, created_at := 0 }

def exQueryDup : List Char := "jwt jwt auth".toList

/-- C7 counterexample: on the query `"jwt jwt auth"` (a repeated token)
and a memory containing `"jwt"` but not `"auth"`, `search_index` scores
the memory `2/3` — each occurrence of `jwt` in the keyword list counts —
while the claim's distinct-token formula gives `1/2`. -/
theorem search_index_distinct_score_cex :
    (search_index [exMemJwt] 1 exQueryDup 5).map (fun item => item.score)
        = [((2 : Nat) : ℚ) / ((3 : Nat) : ℚ)] ∧
    specDistinctScore exQueryDup exMemJwt.content = ((1 : Nat) : ℚ) / ((2 : Nat) : ℚ) ∧
    ((2 : Nat) : ℚ) / ((3 : Nat) : ℚ) ≠ ((1 : Nat) : ℚ) / ((2 : Nat) : ℚ) := by
  refine ⟨rfl, rfl, ?_⟩
  push_cast
  norm_num

/-- C7 (amended): for every call, the score of each returned memory equals
(count of query tokens, **with multiplicity**, appearing in the memory's
lower-cased content) / (total count of query tokens), the query being
tokenized on whitespace and lower-cased; the code never deduplicates the
token list, so repeated tokens weigh repeatedly. -/
theorem search_index_score_multiplicity (memories : List MemoryRow) (sid : Nat)
    (query : List Char) (top_k : Nat) (item : MemoryIndexItem)
    (hmem : item ∈ search_index memories sid query top_k) :
    ∃ m ∈ memories, m.session_id = sid ∧ item.id = m.id ∧
      item.score = (((pySplit (pyLower query)).countP
          (fun kw => containsSub (pyLower m.content) kw)) : ℚ) /
        (((pySplit (pyLower query)).length) : ℚ) := by
  unfold search_index at hmem
  by_cases hk : pySplit (pyLower query) = []
  · rw [if_pos hk] at hmem
    simp at hmem
  · rw [if_neg hk] at hmem
    rcases List.mem_map.mp hmem with ⟨m, hm, hitem⟩
    have hm1 : m ∈ List.insertionSort (fun a b => memOrderLe a b = true)
        (memories.filter (fun m =>
          decide (m.session_id = sid) &&
            (pySplit (pyLower query)).any (fun kw => containsSub (pyLower m.content) kw))) :=
      List.take_subset _ _ hm
    have hm2 : m ∈ memories.filter (fun m =>
        decide (m.session_id = sid) &&
          (pySplit (pyLower query)).any (fun kw => containsSub (pyLower m.content) kw)) :=
      (List.perm_insertionSort _ _).subset hm1
    have hm3 := List.mem_filter.mp hm2
    refine ⟨m, hm3.1, ?_, ?_, ?_⟩
    · have := hm3.2
      simp only [Bool.and_eq_true, decide_eq_true_eq] at this
      exact this.1
    · rw [← hitem]
    · rw [← hitem]
      rfl

/-- A concrete output item of `search_index` on `exMemJwt`. -/
def exIndexItem : MemoryIndexItem :=
  { id := 1, summary := summary50 exMemJwt.content,
    category := MemoryCategory.context, pri := MemoryPriority.normal,
    score := ((2 : Nat) : ℚ) / ((3 : Nat) : ℚ) }

/-- Witness for `search_index_score_multiplicity` on the concrete call. -/
theorem search_index_score_multiplicity_witness :
    ∃ m ∈ [exMemJwt], m.session_id = 1 ∧ exIndexItem.id = m.id ∧
      exIndexItem.score = (((pySplit (pyLower exQueryDup)).countP
          (fun kw => containsSub (pyLower m.content) kw)) : ℚ) /
        (((pySplit (pyLower exQueryDup)).length) : ℚ) :=
  search_index_score_multiplicity [exMemJwt] 1 exQueryDup 5 exIndexItem
    (List.mem_singleton.mpr rfl)

/-! ## Hybrid RRF combination — `hybrid_search` (lines 505-566)

The two inputs are the ranked id lists of the keyword path
(`search_index`) and the vector path (`vector_search`); `enumerate` gives
rank `i + 1` to the element at index `i`.  The ids within one ranking are
distinct (primary keys of one SELECT), under which the first-occurrence
rank below coincides with the dict built by the comprehension. -/

def rankOfAux (memory_id : Nat) : List Nat → Nat → Option Nat
  | [], _ => none
  | x :: rest, i => if x = memory_id then some (i + 1) else rankOfAux memory_id rest (i + 1)

/-- The rank (1-based) of an id in a ranking, `none` when absent. -/
def rankOf (l : List Nat) (memory_id : Nat) : Option Nat :=
  rankOfAux memory_id l 0

/-- The combined score of one candidate (lines 538-553):
`keyword_weight * (1 / (k + rank_kw)) + vector_weight * (1 / (k + rank_vec))`,
with `k = 60` and a missing ranking contributing `0`. -/
def rrfScore (kw vec : List Nat) (keyword_weight vector_weight : ℚ)
    (memory_id : Nat) : ℚ :=
  (match rankOf kw memory_id with
   | some rank => keyword_weight * (1 / ((60 : ℚ) + (rank : ℚ)))
   | none => 0) +
  (match rankOf vec memory_id with
   | some rank => vector_weight * (1 / ((60 : ℚ) + (rank : ℚ)))
   | none => 0)

/-- `sorted(combined_scores.keys(), key=..., reverse=True)` over
`all_ids = set(keyword) | set(vector)`: all candidate ids ordered by
descending combined score.  (`hybrid_search` then truncates to `top_k`;
the ordering statement below is about this full order.) -/
def hybridOrder (kw vec : List Nat) (keyword_weight vector_weight : ℚ) : List Nat :=
  List.insertionSort
    (fun a b => rrfScore kw vec keyword_weight vector_weight b ≤
                rrfScore kw vec keyword_weight vector_weight a)
    ((kw ++ vec).dedup)

theorem rankOfAux_mem {memory_id : Nat} {l : List Nat} {i r : Nat}
    (h : rankOfAux memory_id l i = some r) : memory_id ∈ l := by
  induction l generalizing i with
  | nil => simp [rankOfAux] at h
  | cons x rest ih =>
      by_cases hx : x = memory_id
      · subst hx; exact List.mem_cons_self _ _
      · rw [rankOfAux, if_neg hx] at h
        exact List.mem_cons_of_mem _ (ih h)

theorem rankOf_mem {l : List Nat} {memory_id r : Nat}
    (h : rankOf l memory_id = some r) : memory_id ∈ l :=
  rankOfAux_mem h

/-- In a list sorted by non-increasing score, an element of strictly
greater score sits at a strictly smaller index. -/
theorem sorted_score_desc_pos {l : List Nat} {score : Nat → ℚ}
    (hs : l.Pairwise (fun a b => score b ≤ score a)) {m n : Nat}
    (hmn : score n < score m) :
    ∀ i j : Fin l.length, l.get i = m → l.get j = n → i < j := by
  intro i j hi hj
  rcases lt_trichotomy i j with h | h | h
  · exact h
  · exfalso
    rw [h, hj] at hi
    rw [hi] at hmn
    exact lt_irrefl _ hmn
  · exfalso
    have hle := (List.pairwise_iff_get.mp hs) j i h
    rw [hi, hj] at hle
    exact absurd hmn (not_lt.mpr hle)

/-- C8: with keyword and vector weights both 0.5, a memory `m` present in
both the keyword ranking and the vector ranking is strictly ranked above
any memory `n` present in only one of the two rankings at the same rank
(`n`'s rank in its single ranking equalling one of `m`'s ranks): `n`'s
combined score is strictly below `m`'s, and in the score-descending
candidate order `m` sits strictly before `n`. -/
theorem hybrid_rrf_both_ranked_above (kw vec : List Nat) (m n rm1 rm2 rn : Nat)
    (hm1 : rankOf kw m = some rm1) (hm2 : rankOf vec m = some rm2)
    (hn : (rankOf kw n = some rn ∧ rankOf vec n = none) ∨
          (rankOf vec n = some rn ∧ rankOf kw n = none))
    (hsame : rn = rm1 ∨ rn = rm2) :
    rrfScore kw vec ((1 : ℚ)/2) ((1 : ℚ)/2) n < rrfScore kw vec ((1 : ℚ)/2) ((1 : ℚ)/2) m ∧
    m ∈ hybridOrder kw vec ((1 : ℚ)/2) ((1 : ℚ)/2) ∧
    n ∈ hybridOrder kw vec ((1 : ℚ)/2) ((1 : ℚ)/2) ∧
    ∀ i j : Fin (hybridOrder kw vec ((1 : ℚ)/2) ((1 : ℚ)/2)).length,
      (hybridOrder kw vec ((1 : ℚ)/2) ((1 : ℚ)/2)).get i = m →
      (hybridOrder kw vec ((1 : ℚ)/2) ((1 : ℚ)/2)).get j = n → i < j := by
  have hA : (0 : ℚ) < ((1 : ℚ)/2) * (1 / ((60 : ℚ) + (rm1 : ℚ))) := by positivity
  have hB : (0 : ℚ) < ((1 : ℚ)/2) * (1 / ((60 : ℚ) + (rm2 : ℚ))) := by positivity
  have hscore_m : rrfScore kw vec ((1 : ℚ)/2) ((1 : ℚ)/2) m =
      ((1 : ℚ)/2) * (1 / ((60 : ℚ) + (rm1 : ℚ))) +
      ((1 : ℚ)/2) * (1 / ((60 : ℚ) + (rm2 : ℚ))) := by
    unfold rrfScore
    rw [hm1, hm2]
  have hscore_n : rrfScore kw vec ((1 : ℚ)/2) ((1 : ℚ)/2) n =
      ((1 : ℚ)/2) * (1 / ((60 : ℚ) + (rn : ℚ))) := by
    unfold rrfScore
    rcases hn with ⟨h1, h2⟩ | ⟨h1, h2⟩
    · rw [h1, h2]; ring
    · rw [h1, h2]; ring
  have hlt : rrfScore kw vec ((1 : ℚ)/2) ((1 : ℚ)/2) n <
      rrfScore kw vec ((1 : ℚ)/2) ((1 : ℚ)/2) m := by
    rw [hscore_n, hscore_m]
    rcases hsame with rfl | rfl
    · exact lt_add_of_pos_right _ hB
    · exact lt_add_of_pos_left _ hA
  have hmem_m : m ∈ hybridOrder kw vec ((1 : ℚ)/2) ((1 : ℚ)/2) := by
    unfold hybridOrder
    refine (List.perm_insertionSort _ _).mem_iff.mpr ?_
    exact List.mem_dedup.mpr (List.mem_append.mpr (Or.inl (rankOf_mem hm1)))
  have hmem_n : n ∈ hybridOrder kw vec ((1 : ℚ)/2) ((1 : ℚ)/2) := by
    unfold hybridOrder
    refine (List.perm_insertionSort _ _).mem_iff.mpr ?_
    refine List.mem_dedup.mpr (List.mem_append.mpr ?_)
    rcases hn with ⟨h1, _⟩ | ⟨h1, _⟩
    · exact Or.inl (rankOf_mem h1)
    · exact Or.inr (rankOf_mem h1)
  refine ⟨hlt, hmem_m, hmem_n, ?_⟩
  haveI hTot : IsTotal Nat (fun a b =>
      rrfScore kw vec ((1 : ℚ)/2) ((1 : ℚ)/2) b ≤ rrfScore kw vec ((1 : ℚ)/2) ((1 : ℚ)/2) a) :=
    ⟨fun a b => le_total _ _⟩
  haveI hTrans : IsTrans Nat (fun a b =>
      rrfScore kw vec ((1 : ℚ)/2) ((1 : ℚ)/2) b ≤ rrfScore kw vec ((1 : ℚ)/2) ((1 : ℚ)/2) a) :=
    ⟨fun a b c hab hbc => le_trans hbc hab⟩
  have hsorted := List.sorted_insertionSort
    (fun a b =>
      rrfScore kw vec ((1 : ℚ)/2) ((1 : ℚ)/2) b ≤ rrfScore kw vec ((1 : ℚ)/2) ((1 : ℚ)/2) a)
    ((kw ++ vec).dedup)
  exact sorted_score_desc_pos hsorted hlt

/-- Witness for `hybrid_rrf_both_ranked_above`: keyword ranking `[2, 1]`,
vector ranking `[1]` — memory 1 is in both (ranks 2 and 1), memory 2 is
in only the keyword ranking, at rank 1, the same rank memory 1 holds in
the vector ranking. -/
theorem hybrid_rrf_both_ranked_above_witness :
    rrfScore [2, 1] [1] ((1 : ℚ)/2) ((1 : ℚ)/2) 2 <
      rrfScore [2, 1] [1] ((1 : ℚ)/2) ((1 : ℚ)/2) 1 :=
  (hybrid_rrf_both_ranked_above [2, 1] [1] 1 2 2 1 1
    (by decide) (by decide) (Or.inl ⟨by decide, by decide⟩) (Or.inr rfl)).1
